import Mathlib

/-!
Shallow embedding of arecs.py, a crawler that logs into a university portal,
extracts exam records from an HTML table, and computes a credit-weighted GPA.

Modelling conventions:
- Python floats are modelled as rationals; the decimal strings handled by the
  program denote exact decimals, so the arithmetic in scope is exact.
- Python operations that can raise return Option; a None models the exception
  aborting the run.
- Process-level effects of the credentials bootstrap (file creation, printing,
  sys.exit, network requests) are modelled as an explicit event trace.
-/

/-- Academic record, translating class Result of arecs.py (lines 22 to 30):
fields semester, exam, grade (a Python float, modelled as a rational),
ects (a Python int), passed (the raw status string). -/
structure Result where
  semester : String
  exam : String
  grade : Rat
  ects : Nat
  passed : String
deriving DecidableEq

/-- Python str.format field with an alignment character and a minimum width,
space fill: the translation of the format specs in Result.__str__ (line 34).
Alignment < pads on the right, any other alignment here pads on the left;
no padding happens when the string is at least width characters long. -/
def pyFormat (align : Char) (width : Nat) (s : String) : String :=
  let pad := String.mk (List.replicate (width - s.length) ' ')
  if align = '<' then s ++ pad else pad ++ s

/-- Decimal digits of a fraction r / d, most significant first, stopping at
remainder 0 or when the fuel runs out. -/
def fracDigits : Nat → Nat → Nat → List Char
  | 0, _, _ => []
  | _ + 1, 0, _ => []
  | fuel + 1, r, d => Char.ofNat (48 + (r * 10) / d) :: fracDigits fuel ((r * 10) % d) d

/-- Models CPython str() on the nonnegative floats arising in this program
(whose shortest decimal representation is the exact decimal): integer part,
a dot, then the fraction digits, with a single 0 after the dot when the
value is integral, as in str(2.0) = 2.0 . -/
def showGrade (q : Rat) : String :=
  let n : Nat := q.num.toNat
  let whole := n / q.den
  let ds := fracDigits 17 (n % q.den) q.den
  Nat.repr whole ++ "." ++ (if ds.isEmpty then "0" else String.mk ds)

/-- Result.__str__ (arecs.py lines 32 to 35): passed records use the format
string with specs <14, <40, > and a plain int field; a falsy (empty) status
selects the Not yet passed branch. -/
def Result.toStr (r : Result) : String :=
  if r.passed != "" then
    pyFormat '<' 14 r.semester ++ pyFormat '<' 40 r.exam ++ " > " ++
      pyFormat '>' 0 (showGrade r.grade) ++ " (" ++ Nat.repr r.ects ++ " ECTS)"
  else
    "Not yet passed: " ++ r.exam

/-- The sum_grade accumulator of RecordHandler.calc_gpa (lines 44 to 48):
grade times ects, summed over records with truthy (nonempty) status. -/
def sumGrade (results : List Result) : Rat :=
  results.foldl (fun acc r => if r.passed ≠ "" then acc + r.grade * (r.ects : Rat) else acc) 0

/-- The sum_ects accumulator of RecordHandler.calc_gpa (lines 44 to 49). -/
def sumEcts (results : List Result) : Nat :=
  results.foldl (fun acc r => if r.passed ≠ "" then acc + r.ects else acc) 0

/-- RecordHandler.calc_gpa (lines 43 to 50): the final division raises
ZeroDivisionError when sum_ects is 0, modelled as none. -/
def calc_gpa (results : List Result) : Option Rat :=
  if sumEcts results = 0 then none
  else some (sumGrade results / (sumEcts results : Rat))

/-- The characters Python str.strip removes, restricted to the whitespace
code points below U+00FF that can occur in this data (including U+00A0,
which Python treats as whitespace). -/
def isPyWhitespace (c : Char) : Bool :=
  c = ' ' || c = '\t' || c = '\n' || c = '\r' || c = '\u000B' || c = '\u000C' || c = '\u00A0'

/-- Models unicodedata.normalize NFKD per character, restricted to the
character domain of this data: U+00A0 decomposes to a plain space, every
other character occurring here is NFKD-invariant. -/
def nfkdChar (c : Char) : Char := if c = '\u00A0' then ' ' else c

/-- String-level NFKD under the character model above. -/
def nfkdStr (s : String) : String := String.mk (s.toList.map nfkdChar)

/-- Python str.strip on a character list: drop whitespace from both ends. -/
def stripList (l : List Char) : List Char :=
  ((l.dropWhile isPyWhitespace).reverse.dropWhile isPyWhitespace).reverse

/-- Python str.strip. -/
def pyStrip (s : String) : String := String.mk (stripList s.toList)

/-- Crawler.strip (arecs.py lines 128 to 130): NFKD of the stripped text. -/
def strip (s : String) : String := nfkdStr (pyStrip s)

/-- Python str.split with a one-character separator, on character lists:
keeps empty segments, as Python does. -/
def splitChars (sep : Char) : List Char → List (List Char)
  | [] => [[]]
  | c :: rest =>
    if c = sep then [] :: splitChars sep rest
    else
      match splitChars sep rest with
      | [] => [[c]]
      | g :: gs => (c :: g) :: gs

/-- Value of a nonempty all-digit character run, accumulator form. -/
def digitsValAux : List Char → Nat → Option Nat
  | [], acc => some acc
  | c :: rest, acc =>
    if c.isDigit then digitsValAux rest (acc * 10 + (c.toNat - 48)) else none

/-- Value of a nonempty all-digit character run; none models the ValueError
Python int and float raise on other inputs. -/
def digitsVal (l : List Char) : Option Nat :=
  match l with
  | [] => none
  | _ :: _ => digitsValAux l 0

/-- Models Python float() on the unsigned plain decimal forms this program
feeds it (digits, or digits dot digits); other accepted Python spellings
(signs, exponents, leading or trailing dots) do not occur in this data. -/
def parseFloat (s : String) : Option Rat :=
  match splitChars '.' s.toList with
  | [a] => (digitsVal a).map fun n => (n : Rat)
  | [a, b] =>
    (digitsVal a).bind fun n =>
    (digitsVal b).bind fun m =>
    some ((n : Rat) + (m : Rat) / (10 : Rat) ^ b.length)
  | _ => none

/-- Crawler.parse_ects (arecs.py lines 132 to 135): split the cell content on
the dot character, take segment index 2, take its last character; none models
the IndexError raised when fewer than three segments exist or the segment is
empty. -/
def parse_ects (s : String) : Option Char :=
  (splitChars '.' s.toList)[2]?.bind fun seg => seg.getLast?

/-- Python int() applied to a one-character string, as done on the result of
parse_ects (line 123): a decimal digit or a ValueError. -/
def charDigit (c : Char) : Option Nat :=
  if c.isDigit then some (c.toNat - 48) else none

/-- Python list.index (first position of x, ValueError as none), as used on
the header list in parse_results (lines 120 to 124). -/
def listIndex (x : String) : List String → Option Nat
  | [] => none
  | h :: t => if h = x then some 0 else (listIndex x t).map (· + 1)

/-- grade_lst[elements.index(label)] (lines 120 to 124): position of the
label in the header list, then that cell of the row; none models the
ValueError of a missing label or the IndexError of a short row. -/
def lookupCell (label : String) (elements row : List String) : Option String :=
  (listIndex label elements).bind fun i => row[i]?

/-- The five header labels parse_results looks up (lines 120 to 124). -/
def requiredLabels : List String :=
  ["Semester", "Prüfungsname", "Note", "ECTS", "Status"]

/-- The loop body of parse_results building one Result from one row
(lines 119 to 125), in Python evaluation order: semester, exam, grade
(comma replaced by dot, then float()), ects (parse_ects then int()), status.
The comma replacement is Python str.replace with one-character arguments. -/
def mkResult (elements row : List String) : Option Result :=
  (lookupCell "Semester" elements row).bind fun semester =>
  (lookupCell "Prüfungsname" elements row).bind fun exam =>
  (lookupCell "Note" elements row).bind fun gradeCell =>
  (parseFloat (String.mk (gradeCell.toList.map fun c => if c = ',' then '.' else c))).bind fun grade =>
  (lookupCell "ECTS" elements row).bind fun ectsCell =>
  (parse_ects ectsCell).bind fun c =>
  (charDigit c).bind fun ects =>
  (lookupCell "Status" elements row).bind fun passed =>
  some (Result.mk semester exam grade ects passed)

/-- The group generator of parse_results (lines 109 to 113): for i in
range(0, len(lst), n) yield lst[i : i+n]. The range has ceil(len/n) steps. -/
def group (lst : List α) (n : Nat) : List (List α) :=
  (List.range ((lst.length + n - 1) / n)).map fun i => (lst.drop (i * n)).take n

/-- The record-building loop of parse_results (lines 117 to 125): build a
Result per row, any exception aborting the whole parse. -/
def buildResults (elements : List String) : List (List String) → Option (List Result)
  | [] => some []
  | row :: rest =>
    (mkResult elements row).bind fun r =>
    (buildResults elements rest).bind fun rs =>
    some (r :: rs)

/-- Crawler.parse_results from the point where the header texts and the flat
normalized cell texts are in hand (lines 106 to 126): group the flat cell
list by the header count and build one Result per group. A header count of 0
makes Python range raise ValueError, modelled as none. -/
def parse_results (elements raw : List String) : Option (List Result) :=
  if elements.length = 0 then none
  else buildResults elements (group raw elements.length)

/-- Observable process events of the module-level credentials bootstrap
(arecs.py lines 10 to 20) and the crawler run. -/
inductive BEvent where
  | createTemplate
  | printMsg
  | exitWith (code : Nat)
  | networkCall
deriving DecidableEq

/-- The module-level bootstrap (lines 10 to 20): with no importable secrets
module, write the template file, print, sys.exit(1); with empty USER or
PASSWORD, print and sys.exit(1); otherwise fall through to the crawler. -/
def bootstrapTrace (present : Bool) (user pw : String) : List BEvent :=
  if present then
    if user = "" ∨ pw = "" then [BEvent.printMsg, BEvent.exitWith 1] else []
  else [BEvent.createTemplate, BEvent.printMsg, BEvent.exitWith 1]

/-- Whether an event is a process exit. -/
def isExit : BEvent → Bool
  | BEvent.exitWith _ => true
  | _ => false

/-- Whole-program event trace: the bootstrap runs first and an exit there
stops the program, so the crawler run (whose first action, session.get in
login at line 75, is a network call) contributes only otherwise. -/
def programTrace (present : Bool) (user pw : String) (run : List BEvent) : List BEvent :=
  let b := bootstrapTrace present user pw
  if b.any isExit then b else b ++ run

/-- Padding on the right to a minimum width (left alignment). -/
def padRight (w : Nat) (s : String) : String :=
  s ++ String.mk (List.replicate (w - s.length) ' ')

/-- Padding on the left to a minimum width (right alignment). -/
def padLeftSpec (w : Nat) (s : String) : String :=
  String.mk (List.replicate (w - s.length) ' ') ++ s

/-- The passed-record rendering read literally off the claim wording: each of
semester and exam left-padded to the fixed widths, then the separator, the
grade, and the ECTS suffix. -/
def renderPassedLeftPad (r : Result) : String :=
  padLeftSpec 14 r.semester ++ padLeftSpec 40 r.exam ++ " > " ++
    showGrade r.grade ++ "(" ++ Nat.repr r.ects ++ " ECTS)"

/-- The passed-record rendering as the source produces it: semester and exam
space-padded on the right to widths 14 and 40, then the separator, the grade,
a space, and the parenthesized ECTS suffix. -/
def renderPassedSpec (r : Result) : String :=
  padRight 14 r.semester ++ padRight 40 r.exam ++ " > " ++
    showGrade r.grade ++ " (" ++ Nat.repr r.ects ++ " ECTS)"

/-- Example record list: two passed records (2.0 with 6 credits, 4.0 with 3
credits) around one not-yet-passed record. -/
def gpaExample : List Result :=
  [Result.mk "HWS 17" "A" 2 6 "BE", Result.mk "HWS 17" "B" 3 6 "",
   Result.mk "FSS 18" "C" 4 3 "BE"]

/-! ### Structure of the grouping step -/

/-- The number of chunks the group generator yields. -/
lemma group_length (lst : List α) (n : Nat) :
    (group lst n).length = (lst.length + n - 1) / n := by
  simp [group]

/-- The chunk at position i. -/
lemma group_getElem? (lst : List α) (n i : Nat) (h : i < (lst.length + n - 1) / n) :
    (group lst n)[i]? = some ((lst.drop (i * n)).take n) := by
  simp [group, List.getElem?_range h]

/-- Chunk count for an exact multiple. -/
lemma chunkCount_mul (k n : Nat) (hn : 0 < n) : (k * n + n - 1) / n = k := by
  have h1 : k * n + n - 1 = (n - 1) + k * n := by omega
  rw [h1, Nat.add_mul_div_right _ _ hn, Nat.div_eq_of_lt (by omega), Nat.zero_add]

/-- Chunk count with a nonzero remainder. -/
lemma chunkCount_trunc (q s n : Nat) (hn : 0 < n) (hs : 0 < s) (hsn : s < n) :
    (q * n + s + n - 1) / n = q + 1 := by
  have h1 : q * n + s + n - 1 = ((s - 1) + n) + q * n := by omega
  rw [h1, Nat.add_mul_div_right _ _ hn, Nat.add_div_right _ hn,
    Nat.div_eq_of_lt (by omega)]
  omega

/-- A successful record-building loop yields one record per row. -/
lemma buildResults_length (e : List String) (rows : List (List String)) (rs : List Result)
    (h : buildResults e rows = some rs) : rs.length = rows.length := by
  induction rows generalizing rs with
  | nil =>
    simp only [buildResults, Option.some.injEq] at h
    simp [← h]
  | cons row rest ih =>
    simp only [buildResults, Option.bind_eq_some, Option.some.injEq] at h
    obtain ⟨r, hr, rs2, hrs2, heq⟩ := h
    subst heq
    simp [ih _ hrs2]

/-- The i-th record of a successful loop comes from the i-th row. -/
lemma buildResults_getElem? (e : List String) (rows : List (List String)) (rs : List Result)
    (h : buildResults e rows = some rs) (i : Nat) :
    rs[i]? = rows[i]?.bind (mkResult e) := by
  induction rows generalizing rs i with
  | nil =>
    simp only [buildResults, Option.some.injEq] at h
    subst h
    simp
  | cons row rest ih =>
    simp only [buildResults, Option.bind_eq_some, Option.some.injEq] at h
    obtain ⟨r, hr, rs2, hrs2, heq⟩ := h
    subst heq
    cases i with
    | zero => simp [hr]
    | succ j => simpa using ih _ hrs2 j

/-- One failing row aborts the whole record-building loop. -/
lemma buildResults_none_of_mem (e : List String) (rows : List (List String)) (row : List String)
    (hmem : row ∈ rows) (hnone : mkResult e row = none) : buildResults e rows = none := by
  induction rows with
  | nil => cases hmem
  | cons r0 rest ih =>
    rcases List.mem_cons.mp hmem with heq | hmem2
    · subst heq
      simp [buildResults, hnone]
    · cases hm : mkResult e r0 <;> simp [buildResults, hm, ih hmem2]

/-- C1: for a header sequence H with 0 < |H| and a flat cell sequence of
length k * |H|, the extraction partitions the cells into k consecutive groups
of |H| cells each, in document order, and a successful parse yields exactly
k records, the i-th record being built from the i-th group. -/
theorem parse_results_uniform_grouping
    (elements raw : List String) (k : Nat) (rs : List Result)
    (hn : 0 < elements.length)
    (hlen : raw.length = k * elements.length)
    (hp : parse_results elements raw = some rs) :
    rs.length = k ∧
    (∀ g ∈ group raw elements.length, g.length = elements.length) ∧
    (∀ i, i < k →
      rs[i]? = mkResult elements
        ((raw.drop (i * elements.length)).take elements.length)) := by
  have hb : buildResults elements (group raw elements.length) = some rs := by
    unfold parse_results at hp
    rwa [if_neg (by omega)] at hp
  have hcnt : (group raw elements.length).length = k := by
    rw [group_length, hlen, chunkCount_mul k elements.length hn]
  refine ⟨?_, ?_, ?_⟩
  · rw [buildResults_length _ _ _ hb, hcnt]
  · intro g hg
    simp only [group, List.mem_map, List.mem_range] at hg
    obtain ⟨j, hj, heq⟩ := hg
    rw [hlen, chunkCount_mul k elements.length hn] at hj
    have h2 : j * elements.length + elements.length ≤ k * elements.length := by
      have h3 : (j + 1) * elements.length ≤ k * elements.length :=
        Nat.mul_le_mul_right _ (by omega)
      rw [Nat.succ_mul] at h3
      exact h3
    subst heq
    simp only [List.length_take, List.length_drop, hlen]
    omega
  · intro i hi
    have hgi : (group raw elements.length)[i]? =
        some ((raw.drop (i * elements.length)).take elements.length) := by
      apply group_getElem?
      rw [hlen, chunkCount_mul k elements.length hn]
      omega
    rw [buildResults_getElem? _ _ _ hb i, hgi]
    rfl

/-- C1 witness: a two-row table over the five headers. -/
theorem parse_results_uniform_grouping_witness :
    (0 < (["Semester", "Prüfungsname", "Note", "ECTS", "Status"] : List String).length ∧
     (["HWS 17", "Algebra", "1,3", "a.b.c4", "BE",
       "FSS 18", "Analysis", "2,0", "a.b.c6", ""] : List String).length =
       2 * (["Semester", "Prüfungsname", "Note", "ECTS", "Status"] : List String).length ∧
     parse_results ["Semester", "Prüfungsname", "Note", "ECTS", "Status"]
       ["HWS 17", "Algebra", "1,3", "a.b.c4", "BE",
        "FSS 18", "Analysis", "2,0", "a.b.c6", ""] =
       some [Result.mk "HWS 17" "Algebra" ((13 : Rat) / 10) 4 "BE",
             Result.mk "FSS 18" "Analysis" 2 6 ""]) ∧
    ([Result.mk "HWS 17" "Algebra" ((13 : Rat) / 10) 4 "BE",
      Result.mk "FSS 18" "Analysis" 2 6 ""] : List Result).length = 2 ∧
    (∀ g ∈ group ["HWS 17", "Algebra", "1,3", "a.b.c4", "BE",
                  "FSS 18", "Analysis", "2,0", "a.b.c6", ""]
        (["Semester", "Prüfungsname", "Note", "ECTS", "Status"] : List String).length,
      g.length = (["Semester", "Prüfungsname", "Note", "ECTS", "Status"] : List String).length) ∧
    (∀ i, i < 2 →
      ([Result.mk "HWS 17" "Algebra" ((13 : Rat) / 10) 4 "BE",
        Result.mk "FSS 18" "Analysis" 2 6 ""] : List Result)[i]? =
        mkResult ["Semester", "Prüfungsname", "Note", "ECTS", "Status"]
          ((["HWS 17", "Algebra", "1,3", "a.b.c4", "BE",
             "FSS 18", "Analysis", "2,0", "a.b.c6", ""].drop
              (i * (["Semester", "Prüfungsname", "Note", "ECTS", "Status"] : List String).length)).take
            (["Semester", "Prüfungsname", "Note", "ECTS", "Status"] : List String).length)) := by
  have hp : parse_results ["Semester", "Prüfungsname", "Note", "ECTS", "Status"]
      ["HWS 17", "Algebra", "1,3", "a.b.c4", "BE",
       "FSS 18", "Analysis", "2,0", "a.b.c6", ""] =
      some [Result.mk "HWS 17" "Algebra" ((13 : Rat) / 10) 4 "BE",
            Result.mk "FSS 18" "Analysis" 2 6 ""] := by
    simp +decide [parse_results, buildResults, group, mkResult, lookupCell, listIndex,
      parseFloat, splitChars, digitsVal, digitsValAux, parse_ects, charDigit]
    norm_num
  exact ⟨⟨by decide, by decide, hp⟩,
    parse_results_uniform_grouping _ _ 2 _ (by decide) (by decide) hp⟩

/-! ### Structure of building one record -/

/-- A successfully built record determines a successful lookup for each of
the five required labels, and carries the raw Status cell verbatim. -/
lemma mkResult_some_imp (elements row : List String) (res : Result)
    (h : mkResult elements row = some res) :
    lookupCell "Semester" elements row = some res.semester ∧
    lookupCell "Prüfungsname" elements row = some res.exam ∧
    (∃ gc, lookupCell "Note" elements row = some gc ∧
      parseFloat (String.mk (gc.toList.map fun c => if c = ',' then '.' else c)) =
        some res.grade) ∧
    (∃ ec c, lookupCell "ECTS" elements row = some ec ∧
      parse_ects ec = some c ∧ charDigit c = some res.ects) ∧
    lookupCell "Status" elements row = some res.passed := by
  simp only [mkResult, Option.bind_eq_some, Option.some.injEq] at h
  obtain ⟨sem, h1, exam, h2, gc, h3, g, h4, ec, h5, c, h6, n, h7, st, h8, h9⟩ := h
  subst h9
  exact ⟨h1, h2, ⟨gc, h3, h4⟩, ⟨ec, c, h5, h6, h7⟩, h8⟩

/-- If some required label resolves to a position outside the row, the record
construction fails. -/
lemma mkResult_none_of_short_row (elements row : List String) (label : String) (i : Nat)
    (hlab : label ∈ requiredLabels)
    (hidx : listIndex label elements = some i)
    (hout : row.length ≤ i) :
    mkResult elements row = none := by
  have hcell : lookupCell label elements row = none := by
    simp [lookupCell, hidx, List.getElem?_eq_none hout]
  cases hm : mkResult elements row with
  | none => rfl
  | some res =>
    exfalso
    obtain ⟨c1, c2, ⟨gc, c3, _⟩, ⟨ec, c, c4, _, _⟩, c5⟩ := mkResult_some_imp _ _ _ hm
    simp only [requiredLabels, List.mem_cons, List.not_mem_nil, or_false] at hlab
    rcases hlab with rfl | rfl | rfl | rfl | rfl
    · rw [hcell] at c1; cases c1
    · rw [hcell] at c2; cases c2
    · rw [hcell] at c3; cases c3
    · rw [hcell] at c4; cases c4
    · rw [hcell] at c5; cases c5

/-- C10: when 0 < |H| does not divide the data cell count, the grouping does
not reject: it yields the floor(len/n) full groups of size n followed by one
truncated trailing group holding the len mod n leftover cells, that truncated
group still reaches record construction, and record construction fails there
whenever a required label resolves to a position at or past the truncated
length, which in turn fails the whole parse. -/
theorem group_truncated_trailing
    (elements raw : List String) (q s : Nat) (label : String) (i : Nat)
    (hn : 0 < elements.length)
    (hlen : raw.length = q * elements.length + s)
    (hs : 0 < s) (hsn : s < elements.length)
    (hlab : label ∈ requiredLabels)
    (hidx : listIndex label elements = some i)
    (hi : s ≤ i) :
    (group raw elements.length).length = q + 1 ∧
    (∀ j, j < q → (group raw elements.length)[j]? =
      some ((raw.drop (j * elements.length)).take elements.length) ∧
      ((raw.drop (j * elements.length)).take elements.length).length = elements.length) ∧
    (group raw elements.length)[q]? = some (raw.drop (q * elements.length)) ∧
    (raw.drop (q * elements.length)).length = s ∧
    mkResult elements (raw.drop (q * elements.length)) = none ∧
    parse_results elements raw = none := by
  have hcnt : (raw.length + elements.length - 1) / elements.length = q + 1 := by
    rw [hlen, chunkCount_trunc q s elements.length hn hs hsn]
  have hdlen : (raw.drop (q * elements.length)).length = s := by
    simp only [List.length_drop, hlen]
    omega
  have hlast : (group raw elements.length)[q]? = some (raw.drop (q * elements.length)) := by
    rw [group_getElem? _ _ _ (by omega), List.take_of_length_le (by omega)]
  have hnone : mkResult elements (raw.drop (q * elements.length)) = none :=
    mkResult_none_of_short_row _ _ label i hlab hidx (by omega)
  refine ⟨by rw [group_length, hcnt], ?_, hlast, hdlen, hnone, ?_⟩
  · intro j hj
    have hfull : j * elements.length + elements.length ≤ q * elements.length := by
      have h3 : (j + 1) * elements.length ≤ q * elements.length :=
        Nat.mul_le_mul_right _ (by omega)
      rw [Nat.succ_mul] at h3
      exact h3
    constructor
    · exact group_getElem? _ _ _ (by omega)
    · simp only [List.length_take, List.length_drop, hlen]
      omega
  · have hmem : raw.drop (q * elements.length) ∈ group raw elements.length :=
      List.getElem?_mem hlast
    unfold parse_results
    rw [if_neg (by omega)]
    exact buildResults_none_of_mem _ _ _ hmem hnone

/-- C10 witness: five headers, one full row and a two-cell leftover in which
the Status position 4 lies outside the truncated group. -/
theorem group_truncated_trailing_witness :
    (0 < (["Semester", "Prüfungsname", "Note", "ECTS", "Status"] : List String).length ∧
     (["HWS 17", "Algebra", "1,3", "a.b.c4", "BE", "FSS 18", "Analysis"] : List String).length =
       1 * (["Semester", "Prüfungsname", "Note", "ECTS", "Status"] : List String).length + 2 ∧
     listIndex "Status" ["Semester", "Prüfungsname", "Note", "ECTS", "Status"] = some 4) ∧
    (group ["HWS 17", "Algebra", "1,3", "a.b.c4", "BE", "FSS 18", "Analysis"]
      (["Semester", "Prüfungsname", "Note", "ECTS", "Status"] : List String).length).length = 1 + 1 ∧
    mkResult ["Semester", "Prüfungsname", "Note", "ECTS", "Status"]
      (["HWS 17", "Algebra", "1,3", "a.b.c4", "BE", "FSS 18", "Analysis"].drop
        (1 * (["Semester", "Prüfungsname", "Note", "ECTS", "Status"] : List String).length)) = none ∧
    parse_results ["Semester", "Prüfungsname", "Note", "ECTS", "Status"]
      ["HWS 17", "Algebra", "1,3", "a.b.c4", "BE", "FSS 18", "Analysis"] = none := by
  have h := group_truncated_trailing
    ["Semester", "Prüfungsname", "Note", "ECTS", "Status"]
    ["HWS 17", "Algebra", "1,3", "a.b.c4", "BE", "FSS 18", "Analysis"]
    1 2 "Status" 4 (by decide) (by decide) (by decide) (by decide)
    (by decide) (by decide) (by decide)
  exact ⟨⟨by decide, by decide, by decide⟩, h.1, h.2.2.2.2.1, h.2.2.2.2.2⟩

/-- C3: the credit decoder returns the last character of segment index 2 of
the dot-split of its input whenever that segment exists and is nonempty; on
the known comment template it yields the digit 2, and a row whose credits
cell holds that template is decoded to the integer credit value 2. -/
theorem parse_ects_third_segment :
    (∀ (s : String) (seg : List Char) (c : Char),
      (splitChars '.' s.toList)[2]? = some seg → seg.getLast? = some c →
      parse_ects s = some c) ∧
    parse_ects "<!-- document.write(Math.round(2.0*10)/10); //-->" = some '2' ∧
    mkResult ["Semester", "Prüfungsname", "Note", "ECTS", "Status"]
      ["HWS 17", "Algebra", "1,3",
       "<!-- document.write(Math.round(2.0*10)/10); //-->", "BE"] =
      some (Result.mk "HWS 17" "Algebra" ((13 : Rat) / 10) 2 "BE") := by
  refine ⟨?_, by decide, ?_⟩
  · intro s seg c h1 h2
    unfold parse_ects
    rw [h1]
    simpa using h2
  · simp +decide [mkResult, lookupCell, listIndex, parseFloat, splitChars, digitsVal,
      digitsValAux, parse_ects, charDigit]
    norm_num

/-- C3 witness: the general split rule applied to the known template. -/
theorem parse_ects_third_segment_witness :
    ((splitChars '.' "<!-- document.write(Math.round(2.0*10)/10); //-->".toList)[2]? =
      some "round(2".toList ∧
     "round(2".toList.getLast? = some '2') ∧
    parse_ects "<!-- document.write(Math.round(2.0*10)/10); //-->" = some '2' := by
  exact ⟨⟨by decide, by decide⟩,
    parse_ects_third_segment.1 "<!-- document.write(Math.round(2.0*10)/10); //-->"
      "round(2".toList '2' (by decide) (by decide)⟩

/-! ### The GPA aggregation -/

/-- The ects accumulator as a filtered sum, generalized over the start value. -/
lemma sumEcts_go (l : List Result) (a : Nat) :
    l.foldl (fun acc r => if r.passed ≠ "" then acc + r.ects else acc) a =
    a + ((l.filter fun r => r.passed != "").map fun r => r.ects).sum := by
  induction l generalizing a with
  | nil => simp
  | cons r t ih =>
    rw [List.foldl_cons, List.filter_cons]
    by_cases hp : r.passed = ""
    · have h1 : ¬(r.passed ≠ "") := by simp [hp]
      have h2 : (r.passed != "") = false := by simp [hp]
      rw [if_neg h1, h2]
      simp only [Bool.false_eq_true, if_false]
      exact ih a
    · have h2 : (r.passed != "") = true := by simpa using hp
      rw [if_pos hp, h2]
      simp only [if_true]
      rw [ih (a + r.ects), List.map_cons, List.sum_cons, Nat.add_assoc]

/-- sum_ects is the credit sum of the records with truthy status. -/
lemma sumEcts_eq (l : List Result) :
    sumEcts l = ((l.filter fun r => r.passed != "").map fun r => r.ects).sum := by
  have h := sumEcts_go l 0
  rw [Nat.zero_add] at h
  exact h

/-- The grade accumulator as a filtered sum, generalized over the start value. -/
lemma sumGrade_go (l : List Result) (a : Rat) :
    l.foldl (fun acc r => if r.passed ≠ "" then acc + r.grade * (r.ects : Rat) else acc) a =
    a + ((l.filter fun r => r.passed != "").map fun r => r.grade * (r.ects : Rat)).sum := by
  induction l generalizing a with
  | nil => simp
  | cons r t ih =>
    rw [List.foldl_cons, List.filter_cons]
    by_cases hp : r.passed = ""
    · have h1 : ¬(r.passed ≠ "") := by simp [hp]
      have h2 : (r.passed != "") = false := by simp [hp]
      rw [if_neg h1, h2]
      simp only [Bool.false_eq_true, if_false]
      exact ih a
    · have h2 : (r.passed != "") = true := by simpa using hp
      rw [if_pos hp, h2]
      simp only [if_true]
      rw [ih (a + r.grade * (r.ects : Rat)), List.map_cons, List.sum_cons, add_assoc]

/-- sum_grade is the grade-times-credits sum of the records with truthy status. -/
lemma sumGrade_eq (l : List Result) :
    sumGrade l = ((l.filter fun r => r.passed != "").map fun r => r.grade * (r.ects : Rat)).sum := by
  have h := sumGrade_go l 0
  rw [zero_add] at h
  exact h

/-- C5: with no passed record the credit sum is 0 and the final division of
calc_gpa divides by zero, so the aggregator fails instead of returning a
value. -/
theorem calc_gpa_no_passed_none (results : List Result)
    (h : ∀ r ∈ results, r.passed = "") : calc_gpa results = none := by
  have hnil : results.filter (fun r => r.passed != "") = [] :=
    List.filter_eq_nil_iff.mpr (by intro r hr; simpa using h r hr)
  have hz : sumEcts results = 0 := by
    rw [sumEcts_eq, hnil]
    rfl
  simp [calc_gpa, hz]

/-- C5 witness: a single not-yet-passed record. -/
theorem calc_gpa_no_passed_none_witness :
    (∀ r ∈ [Result.mk "HWS 17" "B" 3 6 ""], r.passed = "") ∧
    calc_gpa [Result.mk "HWS 17" "B" 3 6 ""] = none :=
  ⟨by decide, calc_gpa_no_passed_none _ (by decide)⟩

/-- C2 counterexample: a list containing a passed record for which the code
still produces no GPA value, because the only passed record carries zero
credits and the final division divides zero by zero; the claim as stated
promises a GPA value for every list with at least one passed record. -/
theorem calc_gpa_zero_credits_cex :
    (Result.mk "FSS 18" "Seminar" 2 0 "BE").passed ≠ "" ∧
    calc_gpa [Result.mk "FSS 18" "Seminar" 2 0 "BE"] = none := by
  exact ⟨by decide, by decide⟩

/-- C2 (amended): for every list of records whose passed records carry
nonzero total credits, the GPA is the sum of grade times credits over passed
records divided by the sum of credits over passed records, and non-passed
records contribute to neither sum; with passed records (2.0, 6) and (4.0, 3)
and one failed record in between, the GPA is 24 / 9. -/
theorem calc_gpa_weighted_mean :
    (∀ results : List Result,
      ((results.filter fun r => r.passed != "").map fun r => r.ects).sum ≠ 0 →
      calc_gpa results =
        some (((results.filter fun r => r.passed != "").map
            fun r => r.grade * (r.ects : Rat)).sum /
          ((((results.filter fun r => r.passed != "").map fun r => r.ects).sum : Nat) : Rat))) ∧
    calc_gpa gpaExample = some ((24 : Rat) / 9) := by
  constructor
  · intro results h
    unfold calc_gpa
    rw [sumGrade_eq, sumEcts_eq, if_neg h]
  · simp +decide [gpaExample, calc_gpa, sumGrade, sumEcts]
    norm_num

/-- C2 witness: the amended statement applied to the three-record list. -/
theorem calc_gpa_weighted_mean_witness :
    ((gpaExample.filter fun r => r.passed != "").map fun r => r.ects).sum ≠ 0 ∧
    calc_gpa gpaExample =
      some (((gpaExample.filter fun r => r.passed != "").map
          fun r => r.grade * (r.ects : Rat)).sum /
        ((((gpaExample.filter fun r => r.passed != "").map fun r => r.ects).sum : Nat) : Rat)) :=
  ⟨by decide, calc_gpa_weighted_mean.1 gpaExample (by decide)⟩

/-! ### Position independence of the header lookup -/

/-- A lookup skips a non-matching leading header column. -/
lemma lookupCell_cons_ne (label h : String) (t : List String) (r : String)
    (rt : List String) (hne : h ≠ label) :
    lookupCell label (h :: t) (r :: rt) = lookupCell label t rt := by
  simp only [lookupCell, listIndex, if_neg hne]
  cases hI : listIndex label t with
  | none => simp
  | some j => simp

/-- With a unique matching label and a row at least as long as the headers,
the lookup succeeds and returns a cell paired with the label in the zip. -/
lemma lookupCell_mem (label : String) :
    ∀ (H R : List String), H.count label = 1 → H.length ≤ R.length →
    ∃ v, lookupCell label H R = some v ∧ (label, v) ∈ H.zip R := by
  intro H
  induction H with
  | nil => intro R hc _; simp at hc
  | cons h t ih =>
    intro R hc hlen
    cases R with
    | nil => simp at hlen
    | cons r rt =>
      by_cases he : h = label
      · subst he
        refine ⟨r, ?_, ?_⟩
        · simp [lookupCell, listIndex]
        · simp [List.zip_cons_cons]
      · have hc2 : t.count label = 1 := by
          rw [List.count_cons] at hc
          simpa [he] using hc
        have hlen2 : t.length ≤ rt.length := by simpa using hlen
        obtain ⟨v, hv, hmem⟩ := ih rt hc2 hlen2
        refine ⟨v, ?_, ?_⟩
        · rw [lookupCell_cons_ne label h t r rt he]
          exact hv
        · rw [List.zip_cons_cons]
          exact List.mem_cons_of_mem _ hmem

/-- With a unique matching label, the pair in the zip determines the lookup
result. -/
lemma lookupCell_unique (label : String) :
    ∀ (H R : List String) (v : String), H.count label = 1 → (label, v) ∈ H.zip R →
    lookupCell label H R = some v := by
  intro H
  induction H with
  | nil => intro R v _ hmem; simp at hmem
  | cons h t ih =>
    intro R v hc hmem
    cases R with
    | nil => simp at hmem
    | cons r rt =>
      rw [List.zip_cons_cons, List.mem_cons] at hmem
      by_cases he : h = label
      · subst he
        have hz : t.count h = 0 := by
          rw [List.count_cons] at hc
          simpa using hc
        have hnot : h ∉ t := List.count_eq_zero.mp hz
        rcases hmem with heq | hmem2
        · have hv : v = r := by
            have := congrArg Prod.snd heq
            simpa using this
          subst hv
          simp [lookupCell, listIndex]
        · exact absurd (List.of_mem_zip hmem2).1 hnot
      · rcases hmem with heq | hmem2
        · exact absurd (congrArg Prod.fst heq).symm (by simpa using he)
        · have hc2 : t.count label = 1 := by
            rw [List.count_cons] at hc
            simpa [he] using hc
          rw [lookupCell_cons_ne label h t r rt he]
          exact ih rt v hc2 hmem2

/-- A matching permutation of headers and row cells leaves the lookup of a
label that occurs exactly once unchanged. -/
lemma lookupCell_perm (label : String) (H R Hp Rp : List String)
    (hc : H.count label = 1)
    (hlen : H.length = R.length) (hlenp : Hp.length = Rp.length)
    (hperm : (Hp.zip Rp).Perm (H.zip R)) :
    lookupCell label Hp Rp = lookupCell label H R := by
  have hHp : Hp.Perm H := by
    have h1 := hperm.map Prod.fst
    rwa [List.map_fst_zip Hp Rp (le_of_eq hlenp), List.map_fst_zip H R (le_of_eq hlen)] at h1
  have hcp : Hp.count label = 1 := by
    rw [hHp.count_eq]
    exact hc
  obtain ⟨v, hv, hmem⟩ := lookupCell_mem label H R hc (le_of_eq hlen)
  have hmemp : (label, v) ∈ Hp.zip Rp := hperm.mem_iff.mpr hmem
  rw [lookupCell_unique label Hp Rp v hcp hmemp, hv]

/-- C4 counterexample: the claim quantifies over every header sequence that
contains the five required labels; with the label Semester duplicated,
swapping the two Semester columns is a matching permutation of headers and
cells (the header list is even unchanged), yet the extracted record changes,
because elements.index always selects the first occurrence. -/
theorem mkResult_perm_cex :
    ((["Semester", "Semester", "Prüfungsname", "Note", "ECTS", "Status"].zip
        ["B", "A", "Ex", "1", "x.y.z2", "BE"]).Perm
      (["Semester", "Semester", "Prüfungsname", "Note", "ECTS", "Status"].zip
        ["A", "B", "Ex", "1", "x.y.z2", "BE"])) ∧
    (∀ label ∈ requiredLabels,
      label ∈ ["Semester", "Semester", "Prüfungsname", "Note", "ECTS", "Status"]) ∧
    mkResult ["Semester", "Semester", "Prüfungsname", "Note", "ECTS", "Status"]
        ["B", "A", "Ex", "1", "x.y.z2", "BE"] ≠
      mkResult ["Semester", "Semester", "Prüfungsname", "Note", "ECTS", "Status"]
        ["A", "B", "Ex", "1", "x.y.z2", "BE"] := by
  refine ⟨by decide, by decide, ?_⟩
  have hB : mkResult ["Semester", "Semester", "Prüfungsname", "Note", "ECTS", "Status"]
      ["B", "A", "Ex", "1", "x.y.z2", "BE"] = some (Result.mk "B" "Ex" 1 2 "BE") := by
    simp +decide [mkResult, lookupCell, listIndex, parseFloat, splitChars, digitsVal,
      digitsValAux, parse_ects, charDigit]
  have hA : mkResult ["Semester", "Semester", "Prüfungsname", "Note", "ECTS", "Status"]
      ["A", "B", "Ex", "1", "x.y.z2", "BE"] = some (Result.mk "A" "Ex" 1 2 "BE") := by
    simp +decide [mkResult, lookupCell, listIndex, parseFloat, splitChars, digitsVal,
      digitsValAux, parse_ects, charDigit]
  rw [hA, hB]
  intro hcontra
  simp [Result.mk.injEq] at hcontra

/-- C4 (amended): for every header sequence H in which each of the five
required labels occurs exactly once, and every row R of width equal to H,
any matching permutation of headers and cells, given as a permutation of the
header-cell pairs, yields the identical extracted record. -/
theorem mkResult_perm_invariant (H R Hp Rp : List String)
    (hcount : ∀ label ∈ requiredLabels, H.count label = 1)
    (hlen : H.length = R.length) (hlenp : Hp.length = Rp.length)
    (hperm : (Hp.zip Rp).Perm (H.zip R)) :
    mkResult Hp Rp = mkResult H R := by
  have h1 := lookupCell_perm "Semester" H R Hp Rp (hcount _ (by decide)) hlen hlenp hperm
  have h2 := lookupCell_perm "Prüfungsname" H R Hp Rp (hcount _ (by decide)) hlen hlenp hperm
  have h3 := lookupCell_perm "Note" H R Hp Rp (hcount _ (by decide)) hlen hlenp hperm
  have h4 := lookupCell_perm "ECTS" H R Hp Rp (hcount _ (by decide)) hlen hlenp hperm
  have h5 := lookupCell_perm "Status" H R Hp Rp (hcount _ (by decide)) hlen hlenp hperm
  simp only [mkResult, h1, h2, h3, h4, h5]

/-- C4 witness: swapping the first two (distinct) columns of a five-column
table row. -/
theorem mkResult_perm_invariant_witness :
    ((∀ label ∈ requiredLabels,
        (["Semester", "Prüfungsname", "Note", "ECTS", "Status"] : List String).count label = 1) ∧
     (["Semester", "Prüfungsname", "Note", "ECTS", "Status"] : List String).length =
       (["HWS 17", "Algebra", "1,3", "a.b.c4", "BE"] : List String).length ∧
     (["Prüfungsname", "Semester", "Note", "ECTS", "Status"] : List String).length =
       (["Algebra", "HWS 17", "1,3", "a.b.c4", "BE"] : List String).length ∧
     (["Prüfungsname", "Semester", "Note", "ECTS", "Status"].zip
        ["Algebra", "HWS 17", "1,3", "a.b.c4", "BE"]).Perm
       (["Semester", "Prüfungsname", "Note", "ECTS", "Status"].zip
        ["HWS 17", "Algebra", "1,3", "a.b.c4", "BE"])) ∧
    mkResult ["Prüfungsname", "Semester", "Note", "ECTS", "Status"]
        ["Algebra", "HWS 17", "1,3", "a.b.c4", "BE"] =
      mkResult ["Semester", "Prüfungsname", "Note", "ECTS", "Status"]
        ["HWS 17", "Algebra", "1,3", "a.b.c4", "BE"] :=
  ⟨⟨by decide, by decide, by decide, by decide⟩,
    mkResult_perm_invariant _ _ _ _ (by decide) (by decide) (by decide) (by decide)⟩

/-! ### Cell text normalization -/

/-- The NFKD character model maps whitespace to whitespace and non-whitespace
to itself, so strippability is preserved. -/
lemma isPyWhitespace_nfkdChar (c : Char) :
    isPyWhitespace (nfkdChar c) = isPyWhitespace c := by
  by_cases h : c = '\u00A0'
  · subst h
    decide
  · simp [nfkdChar, h]

/-- Stripping commutes with the NFKD character map. -/
lemma stripList_map_nfkd (l : List Char) :
    stripList (l.map nfkdChar) = (stripList l).map nfkdChar := by
  have hws : isPyWhitespace ∘ nfkdChar = isPyWhitespace := funext isPyWhitespace_nfkdChar
  unfold stripList
  rw [List.dropWhile_map, hws, ← List.map_reverse, List.dropWhile_map, hws,
    ← List.map_reverse]

/-- C6: the extracted text of a cell (strip, the source order: trim first,
then NFKD) equals the raw text put into the modelled NFKD form and then
trimmed of surrounding whitespace; equivalently, non-breaking spaces are
turned into plain spaces and the surrounding whitespace is removed, as on
the concrete NBSP-bounded example. -/
theorem strip_nfkd_trim :
    (∀ s : String, strip s = pyStrip (nfkdStr s)) ∧
    (∀ s : String, strip s =
      pyStrip (String.mk (s.toList.map fun c => if c = '\u00A0' then ' ' else c))) ∧
    strip " \u00A0ab\u00A0cd\u00A0 " = "ab cd" := by
  have hmain : ∀ s : String, strip s = pyStrip (nfkdStr s) := by
    intro s
    show String.mk ((stripList s.toList).map nfkdChar) =
      String.mk (stripList (s.toList.map nfkdChar))
    exact congrArg String.mk (stripList_map_nfkd s.toList).symm
  exact ⟨hmain, fun s => hmain s, by decide⟩

/-! ### Rendering -/

/-- C7 counterexample: at a concrete passed record the rendering differs from
the claimed concatenation in which semester and exam are left-padded (spaces
added on the left): the code left-aligns both fields, padding with spaces on
the right, and puts a space between the grade and the ECTS parenthesis. -/
theorem toStr_left_pad_cex :
    (Result.mk "HWS 17" "Algebra" 2 5 "BE").passed ≠ "" ∧
    Result.toStr (Result.mk "HWS 17" "Algebra" 2 5 "BE") ≠
      renderPassedLeftPad (Result.mk "HWS 17" "Algebra" 2 5 "BE") ∧
    Result.toStr (Result.mk "HWS 17" "Algebra" 2 5 "BE") =
      "HWS 17        Algebra                                  > 2.0 (5 ECTS)" := by
  exact ⟨by decide, by decide, by decide⟩

/-- C7 (amended): rendering is decided by the pass status: a record with
nonempty status renders as the semester and the exam name each left-aligned
(space-padded on the right) to widths 14 and 40, then the separator, the
grade, a space, and the parenthesized ECTS suffix; a record with empty status
renders exactly as the Not yet passed line naming only the exam. -/
theorem toStr_format_spec (r : Result) :
    (r.passed ≠ "" → Result.toStr r = renderPassedSpec r) ∧
    (r.passed = "" → Result.toStr r = "Not yet passed: " ++ r.exam) := by
  constructor
  · intro h
    have hb : (r.passed != "") = true := by simpa using h
    unfold Result.toStr renderPassedSpec pyFormat padRight
    rw [hb]
    simp
  · intro h
    unfold Result.toStr
    simp [h]

/-- C7 witness: one passed and one failed record. -/
theorem toStr_format_spec_witness :
    ((Result.mk "HWS 17" "Algebra" 2 5 "BE").passed ≠ "" ∧
     Result.toStr (Result.mk "HWS 17" "Algebra" 2 5 "BE") =
       renderPassedSpec (Result.mk "HWS 17" "Algebra" 2 5 "BE")) ∧
    ((Result.mk "HWS 17" "Lineare Algebra" 2 5 "").passed = "" ∧
     Result.toStr (Result.mk "HWS 17" "Lineare Algebra" 2 5 "") =
       "Not yet passed: " ++ (Result.mk "HWS 17" "Lineare Algebra" 2 5 "").exam) :=
  ⟨⟨by decide, (toStr_format_spec (Result.mk "HWS 17" "Algebra" 2 5 "BE")).1 (by decide)⟩,
   ⟨by decide, (toStr_format_spec (Result.mk "HWS 17" "Lineare Algebra" 2 5 "")).2 (by decide)⟩⟩

/-! ### Bootstrap behaviour -/

/-- C8: with an absent credentials source the program writes the template,
prints a diagnostic and exits with status 1; with a present source but an
empty username or password it prints and exits with status 1; in all three
situations no network call appears in the whole-program trace, whatever the
crawler run would have contributed. -/
theorem bootstrap_no_network (user pw : String) (run : List BEvent) :
    (programTrace false user pw run =
        [BEvent.createTemplate, BEvent.printMsg, BEvent.exitWith 1] ∧
      BEvent.networkCall ∉ programTrace false user pw run) ∧
    (programTrace true "" pw run = [BEvent.printMsg, BEvent.exitWith 1] ∧
      BEvent.networkCall ∉ programTrace true "" pw run) ∧
    (programTrace true user "" run = [BEvent.printMsg, BEvent.exitWith 1] ∧
      BEvent.networkCall ∉ programTrace true user "" run) := by
  have hx1 : (([BEvent.createTemplate, BEvent.printMsg, BEvent.exitWith 1] :
      List BEvent).any isExit) = true := by decide
  have hx2 : (([BEvent.printMsg, BEvent.exitWith 1] : List BEvent).any isExit) = true := by
    decide
  have h1 : programTrace false user pw run =
      [BEvent.createTemplate, BEvent.printMsg, BEvent.exitWith 1] := by
    simp [programTrace, bootstrapTrace, hx1]
  have h2 : programTrace true "" pw run = [BEvent.printMsg, BEvent.exitWith 1] := by
    simp [programTrace, bootstrapTrace, hx2]
  have h3 : programTrace true user "" run = [BEvent.printMsg, BEvent.exitWith 1] := by
    simp [programTrace, bootstrapTrace, hx2]
  refine ⟨⟨h1, ?_⟩, ⟨h2, ?_⟩, ⟨h3, ?_⟩⟩
  · rw [h1]; decide
  · rw [h2]; decide
  · rw [h3]; decide

/-! ### Truthiness of the status field -/

/-- Length of a left-aligned format field. -/
lemma pyFormat_left_len (w : Nat) (s : String) :
    (pyFormat '<' w s).length = s.length + (w - s.length) := by
  unfold pyFormat
  rw [if_pos rfl, String.length_append]
  show s.length + (List.replicate (w - s.length) ' ').length = _
  rw [List.length_replicate]

/-- Length of a width-zero right-aligned format field. -/
lemma pyFormat_right0_len (s : String) : (pyFormat '>' 0 s).length = s.length := by
  unfold pyFormat
  rw [if_neg (by decide), String.length_append]
  show (List.replicate (0 - s.length) ' ').length + s.length = _
  rw [List.length_replicate]
  omega

/-- A record with truthy status never renders as the Not yet passed line:
the passed rendering is at least 25 characters longer than the exam name,
the failed rendering exactly 16 characters longer. -/
lemma toStr_ne_notPassed (r : Result) (h : r.passed ≠ "") :
    Result.toStr r ≠ "Not yet passed: " ++ r.exam := by
  have hb : (r.passed != "") = true := by simpa using h
  have hstr : Result.toStr r =
      pyFormat '<' 14 r.semester ++ pyFormat '<' 40 r.exam ++ " > " ++
        pyFormat '>' 0 (showGrade r.grade) ++ " (" ++ Nat.repr r.ects ++ " ECTS)" := by
    unfold Result.toStr
    rw [hb]
    simp
  intro hcontra
  have hlen := congrArg String.length hcontra
  rw [hstr] at hlen
  simp only [String.length_append, pyFormat_left_len, pyFormat_right0_len] at hlen
  have e1 : (" > " : String).length = 3 := rfl
  have e2 : (" (" : String).length = 2 := rfl
  have e3 : (" ECTS)" : String).length = 6 := rfl
  have e4 : ("Not yet passed: " : String).length = 16 := rfl
  rw [e1, e2, e3, e4] at hlen
  omega

/-- C9: the pass status is the raw Status cell string used by truthiness:
a built record carries the Status cell verbatim; the GPA sums range exactly
over the records whose status string is nonempty; rendering chooses the Not
yet passed line exactly for an empty status; and a record whose status reads
nicht bestanden still counts as passed, here contributing its grade 5.0 as
the GPA. -/
theorem passed_status_truthiness :
    (∀ (elements row : List String) (res : Result), mkResult elements row = some res →
      lookupCell "Status" elements row = some res.passed) ∧
    (∀ results : List Result,
      sumGrade results = ((results.filter fun r => r.passed != "").map
        fun r => r.grade * (r.ects : Rat)).sum ∧
      sumEcts results = ((results.filter fun r => r.passed != "").map
        fun r => r.ects).sum) ∧
    (∀ r : Result, r.passed = "" ↔ Result.toStr r = "Not yet passed: " ++ r.exam) ∧
    calc_gpa [Result.mk "HWS 17" "Analysis" 5 6 "nicht bestanden"] = some 5 := by
  refine ⟨?_, ?_, ?_, ?_⟩
  · intro elements row res hm
    exact (mkResult_some_imp elements row res hm).2.2.2.2
  · intro results
    exact ⟨sumGrade_eq results, sumEcts_eq results⟩
  · intro r
    constructor
    · intro h
      unfold Result.toStr
      simp [h]
    · intro h
      by_contra hne
      exact toStr_ne_notPassed r hne h
  · simp +decide [calc_gpa, sumGrade, sumEcts]

/-- C9 witness: a row whose Status cell reads nicht bestanden is carried
verbatim into the record. -/
theorem passed_status_truthiness_witness :
    mkResult ["Semester", "Prüfungsname", "Note", "ECTS", "Status"]
      ["HWS 17", "Algebra", "1", "a.b.c4", "nicht bestanden"] =
      some (Result.mk "HWS 17" "Algebra" 1 4 "nicht bestanden") ∧
    lookupCell "Status" ["Semester", "Prüfungsname", "Note", "ECTS", "Status"]
      ["HWS 17", "Algebra", "1", "a.b.c4", "nicht bestanden"] =
      some (Result.mk "HWS 17" "Algebra" 1 4 "nicht bestanden").passed := by
  have hm : mkResult ["Semester", "Prüfungsname", "Note", "ECTS", "Status"]
      ["HWS 17", "Algebra", "1", "a.b.c4", "nicht bestanden"] =
      some (Result.mk "HWS 17" "Algebra" 1 4 "nicht bestanden") := by
    simp +decide [mkResult, lookupCell, listIndex, parseFloat, splitChars, digitsVal,
      digitsValAux, parse_ects, charDigit]
  exact ⟨hm, passed_status_truthiness.1 _ _ _ hm⟩
